import Mathlib

/-!
Verification of the SimSIMD hardware-adaptive metric dispatch engine
(`include/simsimd/simsimd.h`).

The embedding models:
  * the `simsimd_metric_kind_t` and `simsimd_datatype_t` enumerations
    (aliases in the C enum share a value, so each distinct value is one
    constructor);
  * capability bitmasks as natural numbers with the exact bit positions
    of `simsimd_capability_t`;
  * kernel entry points as (operation, datatype, tier) triples mirroring
    the C symbol names `simsimd_<op>_<dtype>_<tier>`;
  * the compile-time `SIMSIMD_TARGET_*` guards as a `Config` of booleans;
  * `simsimd_find_metric_punned` as a first-match walk over the per-datatype
    tier list, including the missing-`break` fallthrough from the
    `simsimd_datatype_f32c_k` case into the `simsimd_datatype_f64c_k` case;
  * `simsimd_capabilities` as a function of the architecture and the
    hardware feature bits it probes;
  * the convenience wrapper `simsimd_metric_punned`.
-/

/-- Distinct values of the C enumeration `simsimd_metric_kind_t`.
Aliases (`inner` = `dot`, `cosine` = `angular` = `cos`, `sqeuclidean` = `l2sq`,
`manhattan` = `hamming`, `tanimoto` = `jaccard`, `kullback_leibler` = `kl`,
`jensen_shannon` = `js`) share the same C value, hence the same constructor. -/
inductive simsimd_metric_kind_t where
  | unknown
  | dot
  | vdot
  | cos
  | l2sq
  | hamming
  | jaccard
  | kl
  | js

/-- Values of the C enumeration `simsimd_datatype_t`. -/
inductive simsimd_datatype_t where
  | unknown
  | f64
  | f32
  | f16
  | i8
  | b8
  | f64c
  | f32c
  | f16c
  | i8c

/-- Operation name component of a kernel symbol. -/
inductive KernelOp where
  | dot | vdot | cos | l2sq | hamming | jaccard | kl | js
deriving DecidableEq

/-- Datatype name component of a kernel symbol. -/
inductive KernelDtype where
  | f64 | f32 | f16 | i8 | b8 | f64c | f32c | f16c
deriving DecidableEq

/-- Tier name component of a kernel symbol. -/
inductive KernelTier where
  | serial | neon | sve | haswell | skylake | ice | sapphire
deriving DecidableEq

/-- A kernel entry point: the C function `simsimd_<op>_<dt>_<tier>`. -/
structure Kernel where
  op : KernelOp
  dt : KernelDtype
  tier : KernelTier
deriving DecidableEq

/-- Bit value `simsimd_cap_serial_k = 1`. -/
def simsimd_cap_serial_k : Nat := 1

/-- Bit value `simsimd_cap_any_k = 0x7FFFFFFF`. -/
def simsimd_cap_any_k : Nat := 0x7FFFFFFF

/-- Bit value `simsimd_cap_neon_k = 1 << 10`. -/
def simsimd_cap_neon_k : Nat := 1 <<< 10

/-- Bit value `simsimd_cap_sve_k = 1 << 11`. -/
def simsimd_cap_sve_k : Nat := 1 <<< 11

/-- Bit value `simsimd_cap_sve2_k = 1 << 12`. -/
def simsimd_cap_sve2_k : Nat := 1 <<< 12

/-- Bit value `simsimd_cap_haswell_k = 1 << 20`. -/
def simsimd_cap_haswell_k : Nat := 1 <<< 20

/-- Bit value `simsimd_cap_skylake_k = 1 << 21`. -/
def simsimd_cap_skylake_k : Nat := 1 <<< 21

/-- Bit value `simsimd_cap_ice_k = 1 << 22`. -/
def simsimd_cap_ice_k : Nat := 1 <<< 22

/-- Bit value `simsimd_cap_sapphire_k = 1 << 23`. -/
def simsimd_cap_sapphire_k : Nat := 1 <<< 23

/-- Compile-time configuration: which `SIMSIMD_TARGET_*` tiers were compiled
into the build (the `#if` guards around the tier blocks). The serial tier has
no guard and is always compiled. -/
structure Config where
  neon : Bool
  sve : Bool
  haswell : Bool
  skylake : Bool
  ice : Bool
  sapphire : Bool

/-- The pair of outputs `*metric_output` / `*capability_output` written by
`simsimd_find_metric_punned`. -/
structure FindResult where
  metric : Option Kernel
  cap : Nat
deriving DecidableEq

/-- One tier block of a datatype's cascade: its compile guard, its capability
bit, and the inner `switch (kind)` as a partial map from kinds to kernels. -/
structure TierEntry where
  compiled : Bool
  capBit : Nat
  table : simsimd_metric_kind_t → Option Kernel

/-- Inner `switch (kind)` of the Skylake tier for `f64` vectors. -/
def table_f64_skylake : simsimd_metric_kind_t → Option Kernel
  | .dot => some ⟨.dot, .f64, .skylake⟩
  | .cos => some ⟨.cos, .f64, .skylake⟩
  | .l2sq => some ⟨.l2sq, .f64, .skylake⟩
  | _ => none

/-- Inner `switch (kind)` of the serial tier for `f64` vectors. -/
def table_f64_serial : simsimd_metric_kind_t → Option Kernel
  | .dot => some ⟨.dot, .f64, .serial⟩
  | .cos => some ⟨.cos, .f64, .serial⟩
  | .l2sq => some ⟨.l2sq, .f64, .serial⟩
  | .js => some ⟨.js, .f64, .serial⟩
  | .kl => some ⟨.kl, .f64, .serial⟩
  | _ => none

/-- Inner `switch (kind)` of the NEON tier for `f32` vectors. -/
def table_f32_neon : simsimd_metric_kind_t → Option Kernel
  | .dot => some ⟨.dot, .f32, .neon⟩
  | .cos => some ⟨.cos, .f32, .neon⟩
  | .l2sq => some ⟨.l2sq, .f32, .neon⟩
  | .js => some ⟨.js, .f32, .neon⟩
  | .kl => some ⟨.kl, .f32, .neon⟩
  | _ => none

/-- Inner `switch (kind)` of the Skylake tier for `f32` vectors. -/
def table_f32_skylake : simsimd_metric_kind_t → Option Kernel
  | .dot => some ⟨.dot, .f32, .skylake⟩
  | .cos => some ⟨.cos, .f32, .skylake⟩
  | .l2sq => some ⟨.l2sq, .f32, .skylake⟩
  | .js => some ⟨.js, .f32, .skylake⟩
  | .kl => some ⟨.kl, .f32, .skylake⟩
  | _ => none

/-- Inner `switch (kind)` of the serial tier for `f32` vectors. -/
def table_f32_serial : simsimd_metric_kind_t → Option Kernel
  | .dot => some ⟨.dot, .f32, .serial⟩
  | .cos => some ⟨.cos, .f32, .serial⟩
  | .l2sq => some ⟨.l2sq, .f32, .serial⟩
  | .js => some ⟨.js, .f32, .serial⟩
  | .kl => some ⟨.kl, .f32, .serial⟩
  | _ => none

/-- Inner `switch (kind)` of the SVE tier for `f16` vectors (only `dot`,
`cos`, `l2sq` are registered there). -/
def table_f16_sve : simsimd_metric_kind_t → Option Kernel
  | .dot => some ⟨.dot, .f16, .sve⟩
  | .cos => some ⟨.cos, .f16, .sve⟩
  | .l2sq => some ⟨.l2sq, .f16, .sve⟩
  | _ => none

/-- Inner `switch (kind)` of the NEON tier for `f16` vectors. -/
def table_f16_neon : simsimd_metric_kind_t → Option Kernel
  | .dot => some ⟨.dot, .f16, .neon⟩
  | .cos => some ⟨.cos, .f16, .neon⟩
  | .l2sq => some ⟨.l2sq, .f16, .neon⟩
  | .js => some ⟨.js, .f16, .neon⟩
  | .kl => some ⟨.kl, .f16, .neon⟩
  | _ => none

/-- Inner `switch (kind)` of the Sapphire tier for `f16` vectors. -/
def table_f16_sapphire : simsimd_metric_kind_t → Option Kernel
  | .dot => some ⟨.dot, .f16, .sapphire⟩
  | .cos => some ⟨.cos, .f16, .sapphire⟩
  | .l2sq => some ⟨.l2sq, .f16, .sapphire⟩
  | .js => some ⟨.js, .f16, .sapphire⟩
  | .kl => some ⟨.kl, .f16, .sapphire⟩
  | _ => none

/-- Inner `switch (kind)` of the Haswell tier for `f16` vectors. -/
def table_f16_haswell : simsimd_metric_kind_t → Option Kernel
  | .dot => some ⟨.dot, .f16, .haswell⟩
  | .cos => some ⟨.cos, .f16, .haswell⟩
  | .l2sq => some ⟨.l2sq, .f16, .haswell⟩
  | .js => some ⟨.js, .f16, .haswell⟩
  | .kl => some ⟨.kl, .f16, .haswell⟩
  | _ => none

/-- Inner `switch (kind)` of the serial tier for `f16` vectors. -/
def table_f16_serial : simsimd_metric_kind_t → Option Kernel
  | .dot => some ⟨.dot, .f16, .serial⟩
  | .cos => some ⟨.cos, .f16, .serial⟩
  | .l2sq => some ⟨.l2sq, .f16, .serial⟩
  | .js => some ⟨.js, .f16, .serial⟩
  | .kl => some ⟨.kl, .f16, .serial⟩
  | _ => none

/-- Inner `switch (kind)` of the NEON tier for `i8` vectors. Note the source
registers `simsimd_cos_i8_neon` under the `dot` kind as well. -/
def table_i8_neon : simsimd_metric_kind_t → Option Kernel
  | .dot => some ⟨.cos, .i8, .neon⟩
  | .cos => some ⟨.cos, .i8, .neon⟩
  | .l2sq => some ⟨.l2sq, .i8, .neon⟩
  | _ => none

/-- Inner `switch (kind)` of the Ice tier for `i8` vectors; `dot` again maps
to the cosine kernel. -/
def table_i8_ice : simsimd_metric_kind_t → Option Kernel
  | .dot => some ⟨.cos, .i8, .ice⟩
  | .cos => some ⟨.cos, .i8, .ice⟩
  | .l2sq => some ⟨.l2sq, .i8, .ice⟩
  | _ => none

/-- Inner `switch (kind)` of the Haswell tier for `i8` vectors; `dot` again
maps to the cosine kernel. -/
def table_i8_haswell : simsimd_metric_kind_t → Option Kernel
  | .dot => some ⟨.cos, .i8, .haswell⟩
  | .cos => some ⟨.cos, .i8, .haswell⟩
  | .l2sq => some ⟨.l2sq, .i8, .haswell⟩
  | _ => none

/-- Inner `switch (kind)` of the serial tier for `i8` vectors; `dot` again
maps to the cosine kernel. -/
def table_i8_serial : simsimd_metric_kind_t → Option Kernel
  | .dot => some ⟨.cos, .i8, .serial⟩
  | .cos => some ⟨.cos, .i8, .serial⟩
  | .l2sq => some ⟨.l2sq, .i8, .serial⟩
  | _ => none

/-- Inner `switch (kind)` of the SVE tier for `b8` vectors. -/
def table_b8_sve : simsimd_metric_kind_t → Option Kernel
  | .hamming => some ⟨.hamming, .b8, .sve⟩
  | .jaccard => some ⟨.jaccard, .b8, .sve⟩
  | _ => none

/-- Inner `switch (kind)` of the NEON tier for `b8` vectors. -/
def table_b8_neon : simsimd_metric_kind_t → Option Kernel
  | .hamming => some ⟨.hamming, .b8, .neon⟩
  | .jaccard => some ⟨.jaccard, .b8, .neon⟩
  | _ => none

/-- Inner `switch (kind)` of the Ice tier for `b8` vectors. -/
def table_b8_ice : simsimd_metric_kind_t → Option Kernel
  | .hamming => some ⟨.hamming, .b8, .ice⟩
  | .jaccard => some ⟨.jaccard, .b8, .ice⟩
  | _ => none

/-- Inner `switch (kind)` of the Haswell tier for `b8` vectors. -/
def table_b8_haswell : simsimd_metric_kind_t → Option Kernel
  | .hamming => some ⟨.hamming, .b8, .haswell⟩
  | .jaccard => some ⟨.jaccard, .b8, .haswell⟩
  | _ => none

/-- Inner `switch (kind)` of the serial tier for `b8` vectors. -/
def table_b8_serial : simsimd_metric_kind_t → Option Kernel
  | .hamming => some ⟨.hamming, .b8, .serial⟩
  | .jaccard => some ⟨.jaccard, .b8, .serial⟩
  | _ => none

/-- Inner `switch (kind)` of the SVE tier for `f32c` vectors. -/
def table_f32c_sve : simsimd_metric_kind_t → Option Kernel
  | .dot => some ⟨.dot, .f32c, .sve⟩
  | .vdot => some ⟨.vdot, .f32c, .sve⟩
  | _ => none

/-- Inner `switch (kind)` of the NEON tier for `f32c` vectors. -/
def table_f32c_neon : simsimd_metric_kind_t → Option Kernel
  | .dot => some ⟨.dot, .f32c, .neon⟩
  | .vdot => some ⟨.vdot, .f32c, .neon⟩
  | _ => none

/-- Inner `switch (kind)` of the Haswell tier for `f32c` vectors. -/
def table_f32c_haswell : simsimd_metric_kind_t → Option Kernel
  | .dot => some ⟨.dot, .f32c, .haswell⟩
  | .vdot => some ⟨.vdot, .f32c, .haswell⟩
  | _ => none

/-- Inner `switch (kind)` of the Skylake tier for `f32c` vectors. -/
def table_f32c_skylake : simsimd_metric_kind_t → Option Kernel
  | .dot => some ⟨.dot, .f32c, .skylake⟩
  | .vdot => some ⟨.vdot, .f32c, .skylake⟩
  | _ => none

/-- Inner `switch (kind)` of the serial tier for `f32c` vectors. -/
def table_f32c_serial : simsimd_metric_kind_t → Option Kernel
  | .dot => some ⟨.dot, .f32c, .serial⟩
  | .vdot => some ⟨.vdot, .f32c, .serial⟩
  | _ => none

/-- Inner `switch (kind)` of the SVE tier for `f64c` vectors. -/
def table_f64c_sve : simsimd_metric_kind_t → Option Kernel
  | .dot => some ⟨.dot, .f64c, .sve⟩
  | .vdot => some ⟨.vdot, .f64c, .sve⟩
  | _ => none

/-- Inner `switch (kind)` of the Skylake tier for `f64c` vectors. -/
def table_f64c_skylake : simsimd_metric_kind_t → Option Kernel
  | .dot => some ⟨.dot, .f64c, .skylake⟩
  | .vdot => some ⟨.vdot, .f64c, .skylake⟩
  | _ => none

/-- Inner `switch (kind)` of the serial tier for `f64c` vectors. -/
def table_f64c_serial : simsimd_metric_kind_t → Option Kernel
  | .dot => some ⟨.dot, .f64c, .serial⟩
  | .vdot => some ⟨.vdot, .f64c, .serial⟩
  | _ => none

/-- Inner `switch (kind)` of the SVE tier for `f16c` vectors. -/
def table_f16c_sve : simsimd_metric_kind_t → Option Kernel
  | .dot => some ⟨.dot, .f16c, .sve⟩
  | .vdot => some ⟨.vdot, .f16c, .sve⟩
  | _ => none

/-- Inner `switch (kind)` of the NEON tier for `f16c` vectors. -/
def table_f16c_neon : simsimd_metric_kind_t → Option Kernel
  | .dot => some ⟨.dot, .f16c, .neon⟩
  | .vdot => some ⟨.vdot, .f16c, .neon⟩
  | _ => none

/-- Inner `switch (kind)` of the Haswell tier for `f16c` vectors. -/
def table_f16c_haswell : simsimd_metric_kind_t → Option Kernel
  | .dot => some ⟨.dot, .f16c, .haswell⟩
  | .vdot => some ⟨.vdot, .f16c, .haswell⟩
  | _ => none

/-- Inner `switch (kind)` of the Sapphire tier for `f16c` vectors. -/
def table_f16c_sapphire : simsimd_metric_kind_t → Option Kernel
  | .dot => some ⟨.dot, .f16c, .sapphire⟩
  | .vdot => some ⟨.vdot, .f16c, .sapphire⟩
  | _ => none

/-- Inner `switch (kind)` of the serial tier for `f16c` vectors. -/
def table_f16c_serial : simsimd_metric_kind_t → Option Kernel
  | .dot => some ⟨.dot, .f16c, .serial⟩
  | .vdot => some ⟨.vdot, .f16c, .serial⟩
  | _ => none

/-- One tier block: `#if compiled` then `if (viable & capBit)` then the inner
`switch (kind)`. Returns the outputs written by a matching `return` statement,
or `none` when control falls to the next tier check. -/
def tierHit (viable : Nat) (kind : simsimd_metric_kind_t) (t : TierEntry) :
    Option FindResult :=
  if t.compiled = true ∧ viable &&& t.capBit ≠ 0 then
    Option.map (fun k => ⟨some k, t.capBit⟩) (t.table kind)
  else none

/-- Walk the tier blocks of one `case` (including fallthrough continuation)
in source order; the first tier whose inner switch matches determines the
written outputs, and falling off the end of the `switch` leaves the initial
`*m = 0, *c = 0`. -/
def resolveTiers (viable : Nat) (kind : simsimd_metric_kind_t) :
    List TierEntry → FindResult
  | [] => ⟨none, 0⟩
  | t :: ts =>
    match tierHit viable kind t with
    | some r => r
    | none => resolveTiers viable kind ts

/-- Tier blocks of `case simsimd_datatype_f64c_k`, in source order. Shared
with the `f32c` case because the source lacks a `break` between them. -/
def tiers_f64c (cfg : Config) : List TierEntry :=
  [⟨cfg.sve, simsimd_cap_sve_k, table_f64c_sve⟩,
   ⟨cfg.skylake, simsimd_cap_skylake_k, table_f64c_skylake⟩,
   ⟨true, simsimd_cap_serial_k, table_f64c_serial⟩]

/-- Tier blocks belonging to `case simsimd_datatype_f32c_k` itself, before
the missing `break` lets control continue into the `f64c` blocks. -/
def tiers_f32c_own (cfg : Config) : List TierEntry :=
  [⟨cfg.sve, simsimd_cap_sve_k, table_f32c_sve⟩,
   ⟨cfg.neon, simsimd_cap_neon_k, table_f32c_neon⟩,
   ⟨cfg.haswell, simsimd_cap_haswell_k, table_f32c_haswell⟩,
   ⟨cfg.skylake, simsimd_cap_skylake_k, table_f32c_skylake⟩,
   ⟨true, simsimd_cap_serial_k, table_f32c_serial⟩]

/-- Tier blocks examined for each datatype `case` of the dispatcher's
`switch (datatype)`, in source order. `unknown` and `i8c` have no tier
blocks (the `unknown` case is an immediate `break`; `i8c` has no case at
all). The `f32c` case falls through into the `f64c` case's blocks because
its last tier block is not followed by a `break`. -/
def tiersFor (cfg : Config) : simsimd_datatype_t → List TierEntry
  | .unknown => []
  | .f64 =>
    [⟨cfg.skylake, simsimd_cap_skylake_k, table_f64_skylake⟩,
     ⟨true, simsimd_cap_serial_k, table_f64_serial⟩]
  | .f32 =>
    [⟨cfg.neon, simsimd_cap_neon_k, table_f32_neon⟩,
     ⟨cfg.skylake, simsimd_cap_skylake_k, table_f32_skylake⟩,
     ⟨true, simsimd_cap_serial_k, table_f32_serial⟩]
  | .f16 =>
    [⟨cfg.sve, simsimd_cap_sve_k, table_f16_sve⟩,
     ⟨cfg.neon, simsimd_cap_neon_k, table_f16_neon⟩,
     ⟨cfg.sapphire, simsimd_cap_sapphire_k, table_f16_sapphire⟩,
     ⟨cfg.haswell, simsimd_cap_haswell_k, table_f16_haswell⟩,
     ⟨true, simsimd_cap_serial_k, table_f16_serial⟩]
  | .i8 =>
    [⟨cfg.neon, simsimd_cap_neon_k, table_i8_neon⟩,
     ⟨cfg.ice, simsimd_cap_ice_k, table_i8_ice⟩,
     ⟨cfg.haswell, simsimd_cap_haswell_k, table_i8_haswell⟩,
     ⟨true, simsimd_cap_serial_k, table_i8_serial⟩]
  | .b8 =>
    [⟨cfg.sve, simsimd_cap_sve_k, table_b8_sve⟩,
     ⟨cfg.neon, simsimd_cap_neon_k, table_b8_neon⟩,
     ⟨cfg.ice, simsimd_cap_ice_k, table_b8_ice⟩,
     ⟨cfg.haswell, simsimd_cap_haswell_k, table_b8_haswell⟩,
     ⟨true, simsimd_cap_serial_k, table_b8_serial⟩]
  | .f64c => tiers_f64c cfg
  | .f32c => tiers_f32c_own cfg ++ tiers_f64c cfg
  | .f16c =>
    [⟨cfg.sve, simsimd_cap_sve_k, table_f16c_sve⟩,
     ⟨cfg.neon, simsimd_cap_neon_k, table_f16c_neon⟩,
     ⟨cfg.haswell, simsimd_cap_haswell_k, table_f16c_haswell⟩,
     ⟨cfg.sapphire, simsimd_cap_sapphire_k, table_f16c_sapphire⟩,
     ⟨true, simsimd_cap_serial_k, table_f16c_serial⟩]
  | .i8c => []

/-- The dispatcher `simsimd_find_metric_punned`: computes
`viable = supported & allowed`, initializes both outputs to zero, and walks
the datatype's tier blocks until a `return` fires. -/
def simsimd_find_metric_punned (cfg : Config) (kind : simsimd_metric_kind_t)
    (datatype : simsimd_datatype_t) (supported allowed : Nat) : FindResult :=
  resolveTiers (supported &&& allowed) kind (tiersFor cfg datatype)

/-- Position (0-based) of the first tier block that fires for the given
viable mask and kind; equals the list length when no tier fires. -/
def chosenIndex (viable : Nat) (kind : simsimd_metric_kind_t) :
    List TierEntry → Nat
  | [] => 0
  | t :: ts =>
    if (tierHit viable kind t).isSome then 0
    else 1 + chosenIndex viable kind ts

/-- Capability bit of the tier block at a given position of a tier list,
or `0` past the end. -/
def capBitAt (ts : List TierEntry) (i : Nat) : Nat :=
  (Option.map TierEntry.capBit (ts.get? i)).getD 0

/-- Inner `switch (kind)` of the serial tier block of each datatype's case
(empty for the datatypes whose cases register nothing). -/
def serialTableFor : simsimd_datatype_t → simsimd_metric_kind_t → Option Kernel
  | .f64 => table_f64_serial
  | .f32 => table_f32_serial
  | .f16 => table_f16_serial
  | .i8 => table_i8_serial
  | .b8 => table_b8_serial
  | .f64c => table_f64c_serial
  | .f32c => table_f32c_serial
  | .f16c => table_f16c_serial
  | _ => fun _ => none

/-- Hardware feature bits the x86 branch of `simsimd_capabilities` extracts
from the `cpuid` results. Each boolean stands for one `supports_*` flag
derived from a register bit. -/
structure X86Features where
  avx2 : Bool
  f16c : Bool
  fma : Bool
  avx512f : Bool
  avx512ifma : Bool
  avx512fp16 : Bool
  avx512vpopcntdq : Bool
  avx512vbmi2 : Bool
  avx512vnni : Bool
  avx512bitalg : Bool

/-- Derived generation flag `supports_haswell`. -/
def supports_haswell (f : X86Features) : Bool := f.avx2 && f.f16c && f.fma

/-- Derived generation flag `supports_skylake`. -/
def supports_skylake (f : X86Features) : Bool := f.avx512f

/-- Derived generation flag `supports_ice`. -/
def supports_ice (f : X86Features) : Bool :=
  f.avx512vnni && f.avx512ifma && f.avx512bitalg && f.avx512vbmi2 && f.avx512vpopcntdq

/-- Derived generation flag `supports_sapphire`. -/
def supports_sapphire (f : X86Features) : Bool := f.avx512fp16

/-- Value of `supports_sve` after the optional Linux `getauxval` probe
(zero-initialized, overwritten only under Linux). -/
def armHwcapSve (hw : Option (Bool × Bool)) : Bool :=
  (Option.map Prod.fst hw).getD false

/-- Value of `supports_sve2` after the optional Linux `getauxval` probe
(zero-initialized, overwritten only under Linux). -/
def armHwcapSve2 (hw : Option (Bool × Bool)) : Bool :=
  (Option.map Prod.snd hw).getD false

/-- Architecture the probe was compiled for, carrying the hardware feature
state it would observe: `x86` with its `cpuid`-derived bits, `arm` with the
optional Linux `getauxval` SVE bits (absent outside Linux), or any other
architecture, where no feature-query mechanism is compiled in. -/
inductive Arch where
  | x86 (f : X86Features)
  | arm (linuxHwcaps : Option (Bool × Bool))
  | other

/-- The probe `simsimd_capabilities`: ORs the generation bits implied by the
probed features into the always-present serial bit; with no query mechanism
it returns just `simsimd_cap_serial_k`. -/
def simsimd_capabilities : Arch → Nat
  | .x86 f =>
    simsimd_cap_haswell_k * (supports_haswell f).toNat |||
    simsimd_cap_skylake_k * (supports_skylake f).toNat |||
    simsimd_cap_ice_k * (supports_ice f).toNat |||
    simsimd_cap_sapphire_k * (supports_sapphire f).toNat |||
    simsimd_cap_serial_k
  | .arm hw =>
    simsimd_cap_neon_k * (1 : Nat) |||
    simsimd_cap_sve_k * (armHwcapSve hw).toNat |||
    simsimd_cap_sve2_k * (armHwcapSve2 hw).toNat |||
    simsimd_cap_serial_k
  | .other => simsimd_cap_serial_k

/-- The convenience wrapper `simsimd_metric_punned`: probes capabilities,
resolves, and returns the selected entry point. -/
def simsimd_metric_punned (cfg : Config) (arch : Arch)
    (kind : simsimd_metric_kind_t) (datatype : simsimd_datatype_t)
    (allowed : Nat) : Option Kernel :=
  let supported := simsimd_capabilities arch
  (simsimd_find_metric_punned cfg kind datatype supported allowed).metric

/-- Configuration with every tier compiled in. -/
def allTiers : Config := ⟨true, true, true, true, true, true⟩

/-- A firing tier block writes its own capability bit. -/
lemma tierHit_cap_eq {viable : Nat} {kind : simsimd_metric_kind_t}
    {t : TierEntry} {r : FindResult} (h : tierHit viable kind t = some r) :
    r.cap = t.capBit := by
  unfold tierHit at h
  split at h
  · obtain ⟨k, _, hr⟩ := Option.map_eq_some'.mp h
    rw [← hr]
  · exact absurd h (by simp)

/-- A firing tier block writes a non-null entry point. -/
lemma tierHit_metric_ne_none {viable : Nat} {kind : simsimd_metric_kind_t}
    {t : TierEntry} {r : FindResult} (h : tierHit viable kind t = some r) :
    r.metric ≠ none := by
  unfold tierHit at h
  split at h
  · obtain ⟨k, _, hr⟩ := Option.map_eq_some'.mp h
    rw [← hr]
    simp
  · exact absurd h (by simp)

/-- A tier block only fires when its inner switch registers the kind. -/
lemma tierHit_table_ne_none {viable : Nat} {kind : simsimd_metric_kind_t}
    {t : TierEntry} {r : FindResult} (h : tierHit viable kind t = some r) :
    t.table kind ≠ none := by
  unfold tierHit at h
  split at h
  · obtain ⟨k, hk, _⟩ := Option.map_eq_some'.mp h
    simp [hk]
  · exact absurd h (by simp)

/-- Intersecting with a larger allowed mask yields a larger viable mask:
if `a1` is a sub-mask of `a2` then `s &&& a1` is a sub-mask of `s &&& a2`. -/
lemma land_sub_mono {a1 a2 : Nat} (h : a1 &&& a2 = a1) (s : Nat) :
    (s &&& a1) &&& (s &&& a2) = s &&& a1 := by
  apply Nat.eq_of_testBit_eq
  intro i
  have hbit : (a1.testBit i && a2.testBit i) = a1.testBit i := by
    have := congrArg (fun x => x.testBit i) h
    simpa [Nat.testBit_land] using this
  simp only [Nat.testBit_land]
  cases hs : s.testBit i <;> cases h1 : a1.testBit i <;> cases h2 : a2.testBit i <;>
    simp_all

/-- Enlarging the viable mask preserves every tier block that fires. -/
lemma tierHit_isSome_mono {v1 v2 : Nat} (h : v1 &&& v2 = v1)
    (kind : simsimd_metric_kind_t) (t : TierEntry)
    (h1 : (tierHit v1 kind t).isSome = true) :
    (tierHit v2 kind t).isSome = true := by
  unfold tierHit at h1 ⊢
  by_cases hc : t.compiled = true ∧ v1 &&& t.capBit ≠ 0
  · have hb2 : v2 &&& t.capBit ≠ 0 := by
      intro hz
      apply hc.2
      calc v1 &&& t.capBit = (v1 &&& v2) &&& t.capBit := by rw [h]
        _ = v1 &&& (v2 &&& t.capBit) := Nat.land_assoc _ _ _
        _ = 0 := by rw [hz]; simp
    rw [if_pos hc] at h1
    rw [if_pos ⟨hc.1, hb2⟩]
    exact h1
  · rw [if_neg hc] at h1
    simp at h1

/-- Enlarging the viable mask moves the first firing tier block to an equal
or earlier position. -/
lemma chosenIndex_le_of_sub {v1 v2 : Nat} (h : v1 &&& v2 = v1)
    (kind : simsimd_metric_kind_t) :
    ∀ ts : List TierEntry, chosenIndex v2 kind ts ≤ chosenIndex v1 kind ts
  | [] => Nat.le_refl _
  | t :: ts => by
    unfold chosenIndex
    by_cases h2 : (tierHit v2 kind t).isSome = true
    · rw [if_pos h2]
      exact Nat.zero_le _
    · have h1 : ¬(tierHit v1 kind t).isSome = true :=
        fun hh => h2 (tierHit_isSome_mono h kind t hh)
      rw [if_neg h1, if_neg h2]
      exact Nat.add_le_add_left (chosenIndex_le_of_sub h kind ts) 1

/-- The capability written by the tier walk is the capability bit of the
tier block at the chosen position. -/
lemma resolveTiers_cap (viable : Nat) (kind : simsimd_metric_kind_t) :
    ∀ ts : List TierEntry,
      (resolveTiers viable kind ts).cap = capBitAt ts (chosenIndex viable kind ts)
  | [] => rfl
  | t :: ts => by
    unfold resolveTiers chosenIndex
    cases hh : tierHit viable kind t with
    | some r =>
      rw [if_pos (by rfl)]
      simpa [capBitAt] using tierHit_cap_eq hh
    | none =>
      rw [if_neg (by simp)]
      have := resolveTiers_cap viable kind ts
      simpa [capBitAt, Nat.add_comm 1 (chosenIndex viable kind ts)] using this

/-- One step of the tier walk when the head block fires. -/
lemma resolveTiers_cons_some {viable : Nat} {kind : simsimd_metric_kind_t}
    {t : TierEntry} {ts : List TierEntry} {r : FindResult}
    (h : tierHit viable kind t = some r) :
    resolveTiers viable kind (t :: ts) = r := by
  show (match tierHit viable kind t with
        | some r => r
        | none => resolveTiers viable kind ts) = r
  rw [h]

/-- One step of the tier walk when the head block misses. -/
lemma resolveTiers_cons_none {viable : Nat} {kind : simsimd_metric_kind_t}
    {t : TierEntry} {ts : List TierEntry}
    (h : tierHit viable kind t = none) :
    resolveTiers viable kind (t :: ts) = resolveTiers viable kind ts := by
  show (match tierHit viable kind t with
        | some r => r
        | none => resolveTiers viable kind ts) = resolveTiers viable kind ts
  rw [h]

/-- A tier block whose inner switch does not register the kind never fires. -/
lemma tierHit_none_of_table {viable : Nat} {kind : simsimd_metric_kind_t}
    {t : TierEntry} (h : t.table kind = none) : tierHit viable kind t = none := by
  unfold tierHit
  split
  · rw [h]; rfl
  · rfl

/-- When no tier block of the cascade fires, the walk leaves the
zero-initialized outputs untouched. -/
lemma resolveTiers_hits_none (viable : Nat) (kind : simsimd_metric_kind_t) :
    ∀ ts : List TierEntry, (∀ t ∈ ts, tierHit viable kind t = none) →
      resolveTiers viable kind ts = ⟨none, 0⟩
  | [], _ => rfl
  | t :: ts, h => by
    rw [resolveTiers_cons_none (h t (List.mem_cons_self t ts))]
    exact resolveTiers_hits_none viable kind ts
      (fun u hu => h u (List.mem_cons_of_mem t hu))

/-- When no tier block of the cascade registers the kind, the walk leaves
the zero-initialized outputs untouched. -/
lemma resolveTiers_none (viable : Nat) (kind : simsimd_metric_kind_t)
    (ts : List TierEntry) (h : ∀ t ∈ ts, t.table kind = none) :
    resolveTiers viable kind ts = ⟨none, 0⟩ :=
  resolveTiers_hits_none viable kind ts
    (fun t ht => tierHit_none_of_table (h t ht))

/-- When every block of a cascade prefix misses, the walk continues into the
fallthrough suffix exactly as if the prefix were absent. -/
lemma resolveTiers_append_skip (viable : Nat) (kind : simsimd_metric_kind_t)
    (ys : List TierEntry) :
    ∀ xs : List TierEntry, (∀ t ∈ xs, tierHit viable kind t = none) →
      resolveTiers viable kind (xs ++ ys) = resolveTiers viable kind ys
  | [], _ => rfl
  | t :: xs, h => by
    show resolveTiers viable kind (t :: (xs ++ ys)) = _
    rw [resolveTiers_cons_none (h t (List.mem_cons_self t xs))]
    exact resolveTiers_append_skip viable kind ys xs
      (fun u hu => h u (List.mem_cons_of_mem t hu))

/-- When the cascade prefix already resolves to a non-null entry point, the
fallthrough suffix is never reached. -/
lemma resolveTiers_append_left (viable : Nat) (kind : simsimd_metric_kind_t)
    (ys : List TierEntry) :
    ∀ xs : List TierEntry, (resolveTiers viable kind xs).metric ≠ none →
      resolveTiers viable kind (xs ++ ys) = resolveTiers viable kind xs
  | [], h => absurd rfl h
  | t :: xs, h => by
    show resolveTiers viable kind (t :: (xs ++ ys)) = _
    cases hh : tierHit viable kind t with
    | some r => rw [resolveTiers_cons_some hh, resolveTiers_cons_some hh]
    | none =>
      rw [resolveTiers_cons_none hh] at h
      rw [resolveTiers_cons_none hh, resolveTiers_cons_none hh]
      exact resolveTiers_append_left viable kind ys xs h

/-- When a block with the same guard and capability bit but a smaller inner
switch follows a missing block, it misses as well. -/
lemma tierHit_none_transfer {viable : Nat} {kind : simsimd_metric_kind_t}
    {c : Bool} {b : Nat} {tbl tbl2 : simsimd_metric_kind_t → Option Kernel}
    (hdom : tbl kind = none → tbl2 kind = none)
    (h : tierHit viable kind ⟨c, b, tbl⟩ = none) :
    tierHit viable kind ⟨c, b, tbl2⟩ = none := by
  unfold tierHit at h ⊢
  split at h <;> rename_i hc
  · rw [if_pos hc]
    rw [Option.map_eq_none'] at h ⊢
    exact hdom h
  · rw [if_neg hc]

/-- Every kernel the walk can return carries the datatype tag common to all
tables of the cascade. -/
lemma resolveTiers_tag (viable : Nat) (kind : simsimd_metric_kind_t)
    (d : KernelDtype) :
    ∀ ts : List TierEntry,
      (∀ t ∈ ts, ∀ kk kern, t.table kk = some kern → kern.dt = d) →
      (resolveTiers viable kind ts = ⟨none, 0⟩ ∨
        ∃ k, (resolveTiers viable kind ts).metric = some k ∧ k.dt = d)
  | [], _ => Or.inl rfl
  | t :: ts, h => by
    cases hh : tierHit viable kind t with
    | some r =>
      rw [resolveTiers_cons_some hh]
      unfold tierHit at hh
      split at hh
      · obtain ⟨kern, hk, hr⟩ := Option.map_eq_some'.mp hh
        refine Or.inr ⟨kern, ?_, h t (List.mem_cons_self t ts) kind kern hk⟩
        rw [← hr]
      · exact absurd hh (by simp)
    | none =>
      rw [resolveTiers_cons_none hh]
      exact resolveTiers_tag viable kind d ts
        (fun u hu => h u (List.mem_cons_of_mem t hu))

/-- Converts a boolean per-kind tag check over a table into the propositional
form the tag lemma for cascades consumes. -/
lemma tag_of_all {tbl : simsimd_metric_kind_t → Option Kernel} {d : KernelDtype}
    (h : ∀ kk, Option.all (fun kern => kern.dt == d) (tbl kk) = true) :
    ∀ kk kern, tbl kk = some kern → kern.dt = d := by
  intro kk kern hk
  have h2 := h kk
  rw [hk] at h2
  simpa using h2

/-- Converts a boolean per-kind domain check between two tables into the
registered-kind inclusion the baseline-completeness proofs consume. -/
lemma dom_of_all {t1 t2 : simsimd_metric_kind_t → Option Kernel}
    (h : ∀ kk, (!(t1 kk).isSome || (t2 kk).isSome) = true) :
    ∀ kk, t1 kk ≠ none → t2 kk ≠ none := by
  intro kk h1
  have h2 := h kk
  rw [Option.isSome_iff_ne_none.mpr h1] at h2
  exact Option.isSome_iff_ne_none.mp (by simpa using h2)

/-- Converts a boolean per-kind absence check between two tables into the
missing-kind inclusion the fallthrough proofs consume. -/
lemma domnone_of_all {t1 t2 : simsimd_metric_kind_t → Option Kernel}
    (h : ∀ kk, (!(t1 kk).isNone || (t2 kk).isNone) = true) :
    ∀ kk, t1 kk = none → t2 kk = none := by
  intro kk h1
  have h2 := h kk
  rw [h1] at h2
  exact Option.isNone_iff_eq_none.mp (by simpa using h2)

/-- Kernels of the SVE `f32c` block carry the `f32c` tag. -/
lemma tag_f32c_sve : ∀ kk kern, table_f32c_sve kk = some kern →
    kern.dt = KernelDtype.f32c := tag_of_all (by intro kk; rcases kk <;> rfl)

/-- Kernels of the NEON `f32c` block carry the `f32c` tag. -/
lemma tag_f32c_neon : ∀ kk kern, table_f32c_neon kk = some kern →
    kern.dt = KernelDtype.f32c := tag_of_all (by intro kk; rcases kk <;> rfl)

/-- Kernels of the Haswell `f32c` block carry the `f32c` tag. -/
lemma tag_f32c_haswell : ∀ kk kern, table_f32c_haswell kk = some kern →
    kern.dt = KernelDtype.f32c := tag_of_all (by intro kk; rcases kk <;> rfl)

/-- Kernels of the Skylake `f32c` block carry the `f32c` tag. -/
lemma tag_f32c_skylake : ∀ kk kern, table_f32c_skylake kk = some kern →
    kern.dt = KernelDtype.f32c := tag_of_all (by intro kk; rcases kk <;> rfl)

/-- Kernels of the serial `f32c` block carry the `f32c` tag. -/
lemma tag_f32c_serial : ∀ kk kern, table_f32c_serial kk = some kern →
    kern.dt = KernelDtype.f32c := tag_of_all (by intro kk; rcases kk <;> rfl)

/-- Each kind absent from the SVE `f32c` switch is absent from the SVE
`f64c` switch, too. -/
lemma domnone_f32c_sve : ∀ kk, table_f32c_sve kk = none →
    table_f64c_sve kk = none := domnone_of_all (by intro kk; rcases kk <;> rfl)

/-- Each kind absent from the Skylake `f32c` switch is absent from the
Skylake `f64c` switch, too. -/
lemma domnone_f32c_skylake : ∀ kk, table_f32c_skylake kk = none →
    table_f64c_skylake kk = none := domnone_of_all (by intro kk; rcases kk <;> rfl)

/-- Each kind absent from the serial `f32c` switch is absent from the serial
`f64c` switch, too. -/
lemma domnone_f32c_serial : ∀ kk, table_f32c_serial kk = none →
    table_f64c_serial kk = none := domnone_of_all (by intro kk; rcases kk <;> rfl)

/-- Every kind the skylake `f64` block registers is also registered by the
serial `f64` block. -/
lemma dom_f64_skylake : ∀ kk, table_f64_skylake kk ≠ none →
    table_f64_serial kk ≠ none := dom_of_all (by intro kk; rcases kk <;> rfl)

/-- Every kind the neon `f32` block registers is also registered by the
serial `f32` block. -/
lemma dom_f32_neon : ∀ kk, table_f32_neon kk ≠ none →
    table_f32_serial kk ≠ none := dom_of_all (by intro kk; rcases kk <;> rfl)

/-- Every kind the skylake `f32` block registers is also registered by the
serial `f32` block. -/
lemma dom_f32_skylake : ∀ kk, table_f32_skylake kk ≠ none →
    table_f32_serial kk ≠ none := dom_of_all (by intro kk; rcases kk <;> rfl)

/-- Every kind the sve `f16` block registers is also registered by the
serial `f16` block. -/
lemma dom_f16_sve : ∀ kk, table_f16_sve kk ≠ none →
    table_f16_serial kk ≠ none := dom_of_all (by intro kk; rcases kk <;> rfl)

/-- Every kind the neon `f16` block registers is also registered by the
serial `f16` block. -/
lemma dom_f16_neon : ∀ kk, table_f16_neon kk ≠ none →
    table_f16_serial kk ≠ none := dom_of_all (by intro kk; rcases kk <;> rfl)

/-- Every kind the sapphire `f16` block registers is also registered by the
serial `f16` block. -/
lemma dom_f16_sapphire : ∀ kk, table_f16_sapphire kk ≠ none →
    table_f16_serial kk ≠ none := dom_of_all (by intro kk; rcases kk <;> rfl)

/-- Every kind the haswell `f16` block registers is also registered by the
serial `f16` block. -/
lemma dom_f16_haswell : ∀ kk, table_f16_haswell kk ≠ none →
    table_f16_serial kk ≠ none := dom_of_all (by intro kk; rcases kk <;> rfl)

/-- Every kind the neon `i8` block registers is also registered by the
serial `i8` block. -/
lemma dom_i8_neon : ∀ kk, table_i8_neon kk ≠ none →
    table_i8_serial kk ≠ none := dom_of_all (by intro kk; rcases kk <;> rfl)

/-- Every kind the ice `i8` block registers is also registered by the
serial `i8` block. -/
lemma dom_i8_ice : ∀ kk, table_i8_ice kk ≠ none →
    table_i8_serial kk ≠ none := dom_of_all (by intro kk; rcases kk <;> rfl)

/-- Every kind the haswell `i8` block registers is also registered by the
serial `i8` block. -/
lemma dom_i8_haswell : ∀ kk, table_i8_haswell kk ≠ none →
    table_i8_serial kk ≠ none := dom_of_all (by intro kk; rcases kk <;> rfl)

/-- Every kind the sve `b8` block registers is also registered by the
serial `b8` block. -/
lemma dom_b8_sve : ∀ kk, table_b8_sve kk ≠ none →
    table_b8_serial kk ≠ none := dom_of_all (by intro kk; rcases kk <;> rfl)

/-- Every kind the neon `b8` block registers is also registered by the
serial `b8` block. -/
lemma dom_b8_neon : ∀ kk, table_b8_neon kk ≠ none →
    table_b8_serial kk ≠ none := dom_of_all (by intro kk; rcases kk <;> rfl)

/-- Every kind the ice `b8` block registers is also registered by the
serial `b8` block. -/
lemma dom_b8_ice : ∀ kk, table_b8_ice kk ≠ none →
    table_b8_serial kk ≠ none := dom_of_all (by intro kk; rcases kk <;> rfl)

/-- Every kind the haswell `b8` block registers is also registered by the
serial `b8` block. -/
lemma dom_b8_haswell : ∀ kk, table_b8_haswell kk ≠ none →
    table_b8_serial kk ≠ none := dom_of_all (by intro kk; rcases kk <;> rfl)

/-- Every kind the sve `f64c` block registers is also registered by the
serial `f64c` block. -/
lemma dom_f64c_sve : ∀ kk, table_f64c_sve kk ≠ none →
    table_f64c_serial kk ≠ none := dom_of_all (by intro kk; rcases kk <;> rfl)

/-- Every kind the skylake `f64c` block registers is also registered by the
serial `f64c` block. -/
lemma dom_f64c_skylake : ∀ kk, table_f64c_skylake kk ≠ none →
    table_f64c_serial kk ≠ none := dom_of_all (by intro kk; rcases kk <;> rfl)

/-- Every kind the `f32c_sve` block registers is also
registered by the serial `f32c` block. -/
lemma dom_f32c_sve : ∀ kk, table_f32c_sve kk ≠ none →
    table_f32c_serial kk ≠ none := dom_of_all (by intro kk; rcases kk <;> rfl)

/-- Every kind the `f32c_neon` block registers is also
registered by the serial `f32c` block. -/
lemma dom_f32c_neon : ∀ kk, table_f32c_neon kk ≠ none →
    table_f32c_serial kk ≠ none := dom_of_all (by intro kk; rcases kk <;> rfl)

/-- Every kind the `f32c_haswell` block registers is also
registered by the serial `f32c` block. -/
lemma dom_f32c_haswell : ∀ kk, table_f32c_haswell kk ≠ none →
    table_f32c_serial kk ≠ none := dom_of_all (by intro kk; rcases kk <;> rfl)

/-- Every kind the `f32c_skylake` block registers is also
registered by the serial `f32c` block. -/
lemma dom_f32c_skylake : ∀ kk, table_f32c_skylake kk ≠ none →
    table_f32c_serial kk ≠ none := dom_of_all (by intro kk; rcases kk <;> rfl)

/-- Every kind the `f64c_sve` block registers is also
registered by the serial `f32c` block. -/
lemma dom_f32c_from_f64c_sve : ∀ kk, table_f64c_sve kk ≠ none →
    table_f32c_serial kk ≠ none := dom_of_all (by intro kk; rcases kk <;> rfl)

/-- Every kind the `f64c_skylake` block registers is also
registered by the serial `f32c` block. -/
lemma dom_f32c_from_f64c_skylake : ∀ kk, table_f64c_skylake kk ≠ none →
    table_f32c_serial kk ≠ none := dom_of_all (by intro kk; rcases kk <;> rfl)

/-- Every kind the `f64c_serial` block registers is also
registered by the serial `f32c` block. -/
lemma dom_f32c_from_f64c_serial : ∀ kk, table_f64c_serial kk ≠ none →
    table_f32c_serial kk ≠ none := dom_of_all (by intro kk; rcases kk <;> rfl)

/-- Every kind the sve `f16c` block registers is also registered by the
serial `f16c` block. -/
lemma dom_f16c_sve : ∀ kk, table_f16c_sve kk ≠ none →
    table_f16c_serial kk ≠ none := dom_of_all (by intro kk; rcases kk <;> rfl)

/-- Every kind the neon `f16c` block registers is also registered by the
serial `f16c` block. -/
lemma dom_f16c_neon : ∀ kk, table_f16c_neon kk ≠ none →
    table_f16c_serial kk ≠ none := dom_of_all (by intro kk; rcases kk <;> rfl)

/-- Every kind the haswell `f16c` block registers is also registered by the
serial `f16c` block. -/
lemma dom_f16c_haswell : ∀ kk, table_f16c_haswell kk ≠ none →
    table_f16c_serial kk ≠ none := dom_of_all (by intro kk; rcases kk <;> rfl)

/-- Every kind the sapphire `f16c` block registers is also registered by the
serial `f16c` block. -/
lemma dom_f16c_sapphire : ∀ kk, table_f16c_sapphire kk ≠ none →
    table_f16c_serial kk ≠ none := dom_of_all (by intro kk; rcases kk <;> rfl)

/-- The two tier walks for a fixed viable mask agree whenever every block's
inner switch gives the same answer for the two kinds. -/
lemma resolveTiers_congr_kind (viable : Nat) (k1 k2 : simsimd_metric_kind_t) :
    ∀ ts : List TierEntry, (∀ t ∈ ts, t.table k1 = t.table k2) →
      resolveTiers viable k1 ts = resolveTiers viable k2 ts
  | [], _ => rfl
  | t :: ts, h => by
    have hh : tierHit viable k1 t = tierHit viable k2 t := by
      unfold tierHit
      rw [h t (List.mem_cons_self t ts)]
    cases h2 : tierHit viable k2 t with
    | some r => rw [resolveTiers_cons_some (hh.trans h2), resolveTiers_cons_some h2]
    | none =>
      rw [resolveTiers_cons_none (hh.trans h2), resolveTiers_cons_none h2]
      exact resolveTiers_congr_kind viable k1 k2 ts
        (fun u hu => h u (List.mem_cons_of_mem t hu))

/-- A bitmask that avoids the serial bit still avoids it after OR with
another such mask. -/
lemma lor_land_serial_zero {x y : Nat} (hx : x &&& 1 = 0) (hy : y &&& 1 = 0) :
    (x ||| y) &&& 1 = 0 := by
  apply Nat.eq_of_testBit_eq
  intro i
  have hx2 := congrArg (fun n => n.testBit i) hx
  have hy2 := congrArg (fun n => n.testBit i) hy
  simp only [Nat.testBit_land, Nat.testBit_lor, Nat.zero_testBit] at hx2 hy2 ⊢
  cases hxi : Nat.testBit x i <;> cases hyi : Nat.testBit y i <;> simp_all

/-- Scaling a capability bit by a boolean flag keeps the serial bit clear. -/
lemma mul_toNat_land_serial_zero {c : Nat} (b : Bool) (hc : c &&& 1 = 0) :
    (c * b.toNat) &&& 1 = 0 := by
  cases b
  · show (c * 0) &&& 1 = 0
    rw [Nat.mul_zero]
    decide
  · show (c * 1) &&& 1 = 0
    rw [Nat.mul_one]
    exact hc

/-- Setting the serial bit by OR makes the serial-bit test succeed. -/
lemma lor_one_land_one (x : Nat) : (x ||| 1) &&& 1 = 1 := by
  apply Nat.eq_of_testBit_eq
  intro i
  simp only [Nat.testBit_land, Nat.testBit_lor]
  cases h1 : (1 : Nat).testBit i <;> simp [h1]

/-- A non-null resolution means some tier block of the cascade registers
the kind. -/
lemma resolve_ne_none_exists (viable : Nat) (kind : simsimd_metric_kind_t) :
    ∀ ts : List TierEntry, (resolveTiers viable kind ts).metric ≠ none →
      ∃ t ∈ ts, t.table kind ≠ none
  | [], h => absurd rfl h
  | t :: ts, h => by
    unfold resolveTiers at h
    cases hh : tierHit viable kind t with
    | some r => exact ⟨t, List.mem_cons_self t ts, tierHit_table_ne_none hh⟩
    | none =>
      rw [hh] at h
      obtain ⟨u, hu, hun⟩ := resolve_ne_none_exists viable kind ts h
      exact ⟨u, List.mem_cons_of_mem t hu, hun⟩

/-- If any tier block of the cascade fires, the walk resolves to a non-null
entry point (the firing block itself or an earlier one). -/
lemma resolve_hit_ne_none (viable : Nat) (kind : simsimd_metric_kind_t) :
    ∀ ts : List TierEntry, ∀ t ∈ ts, tierHit viable kind t ≠ none →
      (resolveTiers viable kind ts).metric ≠ none
  | [], t, ht, _ => absurd ht (List.not_mem_nil t)
  | u :: ts, t, ht, hhit => by
    unfold resolveTiers
    cases hh : tierHit viable kind u with
    | some r => exact tierHit_metric_ne_none hh
    | none =>
      rcases List.mem_cons.mp ht with rfl | ht'
      · exact absurd hh hhit
      · exact resolve_hit_ne_none viable kind ts t ht' hhit

/-- A serial tier block fires whenever the viable mask has the serial bit
and the block's inner switch registers the kind. -/
lemma serial_entry_hit (viable : Nat) (kind : simsimd_metric_kind_t)
    (tbl : simsimd_metric_kind_t → Option Kernel)
    (hv : viable &&& simsimd_cap_serial_k ≠ 0) (h : tbl kind ≠ none) :
    tierHit viable kind ⟨true, simsimd_cap_serial_k, tbl⟩ ≠ none := by
  unfold tierHit
  rw [if_pos ⟨rfl, hv⟩]
  simp only [ne_eq, Option.map_eq_none']
  exact h

/-- C1: for every metric kind and all supported/allowed masks, resolving
datatype `f32c` either returns a kernel registered under datatype `f32c` or
leaves the null entry point with zero capability; despite the missing `break`
that lets the `f32c` case fall into the `f64c` case, no `f64c` kernel is ever
returned. -/
theorem f32c_resolution_stays_f32c (cfg : Config) (kind : simsimd_metric_kind_t)
    (supported allowed : Nat) :
    simsimd_find_metric_punned cfg kind .f32c supported allowed = ⟨none, 0⟩ ∨
    ∃ k, (simsimd_find_metric_punned cfg kind .f32c supported allowed).metric = some k ∧
      k.dt = KernelDtype.f32c := by
  simp only [simsimd_find_metric_punned, tiersFor]
  by_cases hx : ∀ t ∈ tiers_f32c_own cfg, tierHit (supported &&& allowed) kind t = none
  · left
    rw [resolveTiers_append_skip _ _ _ _ hx]
    refine resolveTiers_hits_none _ _ _ ?_
    intro t ht
    simp only [tiers_f64c, List.mem_cons, List.mem_singleton, List.mem_nil_iff, or_false] at ht
    rcases ht with rfl | rfl | rfl
    · exact tierHit_none_transfer (domnone_f32c_sve kind)
        (hx _ (List.mem_cons_self _ _))
    · exact tierHit_none_transfer (domnone_f32c_skylake kind)
        (hx _ (List.mem_cons_of_mem _ (List.mem_cons_of_mem _
          (List.mem_cons_of_mem _ (List.mem_cons_self _ _)))))
    · exact tierHit_none_transfer (domnone_f32c_serial kind)
        (hx _ (List.mem_cons_of_mem _ (List.mem_cons_of_mem _
          (List.mem_cons_of_mem _ (List.mem_cons_of_mem _
            (List.mem_cons_self _ _))))))
  · push_neg at hx
    obtain ⟨t, ht, hhit⟩ := hx
    rw [resolveTiers_append_left _ _ _ _ (resolve_hit_ne_none _ _ _ t ht hhit)]
    refine resolveTiers_tag _ _ _ _ ?_
    intro u hu
    simp only [tiers_f32c_own, List.mem_cons, List.mem_singleton, List.mem_nil_iff, or_false] at hu
    rcases hu with rfl | rfl | rfl | rfl | rfl
    · exact tag_f32c_sve
    · exact tag_f32c_neon
    · exact tag_f32c_haswell
    · exact tag_f32c_skylake
    · exact tag_f32c_serial

/-- C9: for datatype `i8`, resolving the dot kind gives exactly the same
result (entry point and capability) as resolving the cosine kind under the
same masks, because every `i8` tier registers the cosine kernel under the
dot kind. -/
theorem i8_dot_resolves_to_cos (cfg : Config) (supported allowed : Nat) :
    simsimd_find_metric_punned cfg .dot .i8 supported allowed =
      simsimd_find_metric_punned cfg .cos .i8 supported allowed := by
  refine resolveTiers_congr_kind _ _ _ _ ?_
  intro t ht
  simp only [tiersFor, List.mem_cons, List.mem_singleton, List.mem_nil_iff, or_false] at ht
  rcases ht with rfl | rfl | rfl | rfl <;> rfl

/-- C10: datatypes `i8c` and `unknown` have no tier blocks at all, so the
dispatcher writes a null entry point and zero capability for every kind and
all masks. -/
theorem i8c_and_unknown_always_null (cfg : Config) (kind : simsimd_metric_kind_t)
    (supported allowed : Nat) :
    simsimd_find_metric_punned cfg kind .i8c supported allowed = ⟨none, 0⟩ ∧
    simsimd_find_metric_punned cfg kind .unknown supported allowed = ⟨none, 0⟩ :=
  ⟨rfl, rfl⟩

/-- C8: the convenience wrapper returns exactly the entry point that
`simsimd_find_metric_punned` writes when `supported` is the probe's result. -/
theorem metric_punned_eq_find_with_probe (cfg : Config) (arch : Arch)
    (kind : simsimd_metric_kind_t) (datatype : simsimd_datatype_t) (allowed : Nat) :
    simsimd_metric_punned cfg arch kind datatype allowed =
      (simsimd_find_metric_punned cfg kind datatype
        (simsimd_capabilities arch) allowed).metric := rfl

/-- C2 counterexample: with `supported = 0` (serial bit absent from the
supported mask) and `allowed` restricted to the serial bit, the dispatcher
returns a null entry point even for a baseline-registered pair such as
(dot, f64), refuting the claim for arbitrary supported masks. -/
theorem serial_fallback_fails_for_zero_supported :
    (simsimd_find_metric_punned allTiers .dot .f64 0 simsimd_cap_serial_k).metric
      = none := by decide

/-- C2 amended: for every (kind, datatype) pair the serial tier registers,
and every supported mask whose serial bit is set, restricting `allowed` to
the serial bit alone yields a non-null entry point. -/
theorem serial_fallback_complete (cfg : Config) (kind : simsimd_metric_kind_t)
    (dt : simsimd_datatype_t) (supported : Nat)
    (hreg : serialTableFor dt kind ≠ none)
    (hs : supported &&& simsimd_cap_serial_k ≠ 0) :
    (simsimd_find_metric_punned cfg kind dt supported simsimd_cap_serial_k).metric
      ≠ none := by
  have hv : (supported &&& simsimd_cap_serial_k) &&& simsimd_cap_serial_k ≠ 0 := by
    rw [Nat.land_assoc]
    have hss : simsimd_cap_serial_k &&& simsimd_cap_serial_k = simsimd_cap_serial_k := by
      decide
    rw [hss]
    exact hs
  rcases dt
  case unknown => exact absurd rfl hreg
  case i8c => exact absurd rfl hreg
  case f64 =>
    exact resolve_hit_ne_none _ _ _ _
      (List.mem_cons_of_mem _ (List.mem_cons_self _ _))
      (serial_entry_hit _ _ table_f64_serial hv hreg)
  case f32 =>
    exact resolve_hit_ne_none _ _ _ _
      (List.mem_cons_of_mem _ (List.mem_cons_of_mem _ (List.mem_cons_self _ _)))
      (serial_entry_hit _ _ table_f32_serial hv hreg)
  case f16 =>
    exact resolve_hit_ne_none _ _ _ _
      (List.mem_cons_of_mem _ (List.mem_cons_of_mem _ (List.mem_cons_of_mem _
        (List.mem_cons_of_mem _ (List.mem_cons_self _ _)))))
      (serial_entry_hit _ _ table_f16_serial hv hreg)
  case i8 =>
    exact resolve_hit_ne_none _ _ _ _
      (List.mem_cons_of_mem _ (List.mem_cons_of_mem _ (List.mem_cons_of_mem _
        (List.mem_cons_self _ _))))
      (serial_entry_hit _ _ table_i8_serial hv hreg)
  case b8 =>
    exact resolve_hit_ne_none _ _ _ _
      (List.mem_cons_of_mem _ (List.mem_cons_of_mem _ (List.mem_cons_of_mem _
        (List.mem_cons_of_mem _ (List.mem_cons_self _ _)))))
      (serial_entry_hit _ _ table_b8_serial hv hreg)
  case f64c =>
    exact resolve_hit_ne_none _ _ _ _
      (List.mem_cons_of_mem _ (List.mem_cons_of_mem _ (List.mem_cons_self _ _)))
      (serial_entry_hit _ _ table_f64c_serial hv hreg)
  case f32c =>
    exact resolve_hit_ne_none _ _ _ _
      (List.mem_cons_of_mem _ (List.mem_cons_of_mem _ (List.mem_cons_of_mem _
        (List.mem_cons_of_mem _ (List.mem_cons_self _ _)))))
      (serial_entry_hit _ _ table_f32c_serial hv hreg)
  case f16c =>
    exact resolve_hit_ne_none _ _ _ _
      (List.mem_cons_of_mem _ (List.mem_cons_of_mem _ (List.mem_cons_of_mem _
        (List.mem_cons_of_mem _ (List.mem_cons_self _ _)))))
      (serial_entry_hit _ _ table_f16c_serial hv hreg)

/-- C2 witness: the amended theorem applied at (dot, f64) with
`supported = serial`. -/
theorem serial_fallback_complete_witness :
    serialTableFor .f64 .dot ≠ none ∧
    simsimd_cap_serial_k &&& simsimd_cap_serial_k ≠ 0 ∧
    (simsimd_find_metric_punned allTiers .dot .f64 simsimd_cap_serial_k
      simsimd_cap_serial_k).metric ≠ none :=
  ⟨by decide, by decide,
    serial_fallback_complete allTiers .dot .f64 simsimd_cap_serial_k
      (by decide) (by decide)⟩

/-- C5: when no tier block of a datatype's cascade registers the requested
kind, the dispatcher's only signal is its return values: it writes the null
entry point and zero capability for all supported/allowed masks. -/
theorem unregistered_pair_returns_null (cfg : Config)
    (kind : simsimd_metric_kind_t) (dt : simsimd_datatype_t)
    (supported allowed : Nat)
    (h : ∀ t ∈ tiersFor cfg dt, t.table kind = none) :
    simsimd_find_metric_punned cfg kind dt supported allowed = ⟨none, 0⟩ :=
  resolveTiers_none _ _ _ h

/-- C5 witness: (jaccard, f32) is registered nowhere, and resolving it under
full capability masks yields the null entry point and zero capability. -/
theorem unregistered_pair_returns_null_witness :
    (∀ t ∈ tiersFor allTiers .f32, t.table .jaccard = none) ∧
    simsimd_find_metric_punned allTiers .jaccard .f32 simsimd_cap_any_k
      simsimd_cap_any_k = ⟨none, 0⟩ :=
  ⟨by decide,
    unregistered_pair_returns_null allTiers .jaccard .f32 _ _ (by decide)⟩

/-- C6: a viable SVE tier that does not implement Jensen-Shannon for `f16`
does not block fallback: with both the SVE and NEON bits viable, resolution
returns the NEON `js` kernel with capability NEON. -/
theorem sve_partial_coverage_falls_to_neon (cfg : Config)
    (supported allowed : Nat) (hneon : cfg.neon = true)
    (_hsve : (supported &&& allowed) &&& simsimd_cap_sve_k ≠ 0)
    (hneonbit : (supported &&& allowed) &&& simsimd_cap_neon_k ≠ 0) :
    simsimd_find_metric_punned cfg .js .f16 supported allowed =
      ⟨some ⟨.js, .f16, .neon⟩, simsimd_cap_neon_k⟩ := by
  have h1 : tierHit (supported &&& allowed) .js
      ⟨cfg.sve, simsimd_cap_sve_k, table_f16_sve⟩ = none :=
    tierHit_none_of_table rfl
  have h2 : tierHit (supported &&& allowed) .js
      ⟨cfg.neon, simsimd_cap_neon_k, table_f16_neon⟩ =
      some ⟨some ⟨.js, .f16, .neon⟩, simsimd_cap_neon_k⟩ := by
    unfold tierHit
    rw [if_pos ⟨hneon, hneonbit⟩]
    rfl
  show resolveTiers (supported &&& allowed) .js
    (⟨cfg.sve, simsimd_cap_sve_k, table_f16_sve⟩ ::
      ⟨cfg.neon, simsimd_cap_neon_k, table_f16_neon⟩ ::
      [⟨cfg.sapphire, simsimd_cap_sapphire_k, table_f16_sapphire⟩,
       ⟨cfg.haswell, simsimd_cap_haswell_k, table_f16_haswell⟩,
       ⟨true, simsimd_cap_serial_k, table_f16_serial⟩]) = _
  rw [resolveTiers_cons_none h1, resolveTiers_cons_some h2]

/-- C6 witness: the theorem applied with every tier compiled and
`supported = SVE ||| NEON`, `allowed = any`. -/
theorem sve_partial_coverage_falls_to_neon_witness :
    allTiers.neon = true ∧
    ((simsimd_cap_sve_k ||| simsimd_cap_neon_k) &&& simsimd_cap_any_k) &&&
      simsimd_cap_sve_k ≠ 0 ∧
    ((simsimd_cap_sve_k ||| simsimd_cap_neon_k) &&& simsimd_cap_any_k) &&&
      simsimd_cap_neon_k ≠ 0 ∧
    simsimd_find_metric_punned allTiers .js .f16
      (simsimd_cap_sve_k ||| simsimd_cap_neon_k) simsimd_cap_any_k =
      ⟨some ⟨.js, .f16, .neon⟩, simsimd_cap_neon_k⟩ :=
  ⟨rfl, by decide, by decide,
    sve_partial_coverage_falls_to_neon allTiers _ _ rfl (by decide) (by decide)⟩

/-- C3: for fixed kind, datatype and supported mask, if `allowed1` is a
bitmask subset of `allowed2`, the tier block chosen under `allowed1` sits at
an equal or later position of the datatype's tier-examination order than the
one chosen under `allowed2`, and in both runs the capability written is the
capability bit of the block at the chosen position (list length, carrying
capability 0, when no block fires). -/
theorem restricting_allowed_never_upgrades (cfg : Config)
    (kind : simsimd_metric_kind_t) (dt : simsimd_datatype_t)
    (supported a1 a2 : Nat) (hsub : a1 &&& a2 = a1) :
    chosenIndex (supported &&& a2) kind (tiersFor cfg dt) ≤
      chosenIndex (supported &&& a1) kind (tiersFor cfg dt) ∧
    (simsimd_find_metric_punned cfg kind dt supported a1).cap =
      capBitAt (tiersFor cfg dt)
        (chosenIndex (supported &&& a1) kind (tiersFor cfg dt)) ∧
    (simsimd_find_metric_punned cfg kind dt supported a2).cap =
      capBitAt (tiersFor cfg dt)
        (chosenIndex (supported &&& a2) kind (tiersFor cfg dt)) :=
  ⟨chosenIndex_le_of_sub (land_sub_mono hsub supported) kind (tiersFor cfg dt),
    resolveTiers_cap _ _ _, resolveTiers_cap _ _ _⟩

/-- C3 witness: the theorem applied at (dot, f32) with `allowed1 = serial`
and `allowed2 = any` under a fully supported machine. -/
theorem restricting_allowed_never_upgrades_witness :
    simsimd_cap_serial_k &&& simsimd_cap_any_k = simsimd_cap_serial_k ∧
    (chosenIndex (simsimd_cap_any_k &&& simsimd_cap_any_k) .dot
        (tiersFor allTiers .f32) ≤
      chosenIndex (simsimd_cap_any_k &&& simsimd_cap_serial_k) .dot
        (tiersFor allTiers .f32) ∧
    (simsimd_find_metric_punned allTiers .dot .f32 simsimd_cap_any_k
        simsimd_cap_serial_k).cap =
      capBitAt (tiersFor allTiers .f32)
        (chosenIndex (simsimd_cap_any_k &&& simsimd_cap_serial_k) .dot
          (tiersFor allTiers .f32)) ∧
    (simsimd_find_metric_punned allTiers .dot .f32 simsimd_cap_any_k
        simsimd_cap_any_k).cap =
      capBitAt (tiersFor allTiers .f32)
        (chosenIndex (simsimd_cap_any_k &&& simsimd_cap_any_k) .dot
          (tiersFor allTiers .f32))) :=
  ⟨by decide,
    restricting_allowed_never_upgrades allTiers .dot .f32 simsimd_cap_any_k
      simsimd_cap_serial_k simsimd_cap_any_k (by decide)⟩

/-- C4: whenever the dispatcher returns a non-null entry point for some
kind, datatype and masks, the serial tier also registers that combination:
the same query with `supported = allowed = serial` is also non-null. -/
theorem baseline_registers_everything (cfg : Config)
    (kind : simsimd_metric_kind_t) (dt : simsimd_datatype_t)
    (supported allowed : Nat)
    (h : (simsimd_find_metric_punned cfg kind dt supported allowed).metric ≠ none) :
    (simsimd_find_metric_punned cfg kind dt simsimd_cap_serial_k
      simsimd_cap_serial_k).metric ≠ none := by
  obtain ⟨t, ht, htab⟩ := resolve_ne_none_exists _ _ _ h
  have hv : (simsimd_cap_serial_k &&& simsimd_cap_serial_k) &&&
      simsimd_cap_serial_k ≠ 0 := by decide
  rcases dt
  case unknown => simp [tiersFor] at ht
  case i8c => simp [tiersFor] at ht
  case f64 =>
    refine resolve_hit_ne_none _ _ _ _
      (List.mem_cons_of_mem _ (List.mem_cons_self _ _))
      (serial_entry_hit _ _ table_f64_serial hv ?_)
    simp only [tiersFor, List.mem_cons, List.mem_singleton, List.mem_nil_iff, or_false] at ht
    rcases ht with rfl | rfl
    · exact dom_f64_skylake kind htab
    · exact htab
  case f32 =>
    refine resolve_hit_ne_none _ _ _ _
      (List.mem_cons_of_mem _ (List.mem_cons_of_mem _ (List.mem_cons_self _ _)))
      (serial_entry_hit _ _ table_f32_serial hv ?_)
    simp only [tiersFor, List.mem_cons, List.mem_singleton, List.mem_nil_iff, or_false] at ht
    rcases ht with rfl | rfl | rfl
    · exact dom_f32_neon kind htab
    · exact dom_f32_skylake kind htab
    · exact htab
  case f16 =>
    refine resolve_hit_ne_none _ _ _ _
      (List.mem_cons_of_mem _ (List.mem_cons_of_mem _ (List.mem_cons_of_mem _
        (List.mem_cons_of_mem _ (List.mem_cons_self _ _)))))
      (serial_entry_hit _ _ table_f16_serial hv ?_)
    simp only [tiersFor, List.mem_cons, List.mem_singleton, List.mem_nil_iff, or_false] at ht
    rcases ht with rfl | rfl | rfl | rfl | rfl
    · exact dom_f16_sve kind htab
    · exact dom_f16_neon kind htab
    · exact dom_f16_sapphire kind htab
    · exact dom_f16_haswell kind htab
    · exact htab
  case i8 =>
    refine resolve_hit_ne_none _ _ _ _
      (List.mem_cons_of_mem _ (List.mem_cons_of_mem _ (List.mem_cons_of_mem _
        (List.mem_cons_self _ _))))
      (serial_entry_hit _ _ table_i8_serial hv ?_)
    simp only [tiersFor, List.mem_cons, List.mem_singleton, List.mem_nil_iff, or_false] at ht
    rcases ht with rfl | rfl | rfl | rfl
    · exact dom_i8_neon kind htab
    · exact dom_i8_ice kind htab
    · exact dom_i8_haswell kind htab
    · exact htab
  case b8 =>
    refine resolve_hit_ne_none _ _ _ _
      (List.mem_cons_of_mem _ (List.mem_cons_of_mem _ (List.mem_cons_of_mem _
        (List.mem_cons_of_mem _ (List.mem_cons_self _ _)))))
      (serial_entry_hit _ _ table_b8_serial hv ?_)
    simp only [tiersFor, List.mem_cons, List.mem_singleton, List.mem_nil_iff, or_false] at ht
    rcases ht with rfl | rfl | rfl | rfl | rfl
    · exact dom_b8_sve kind htab
    · exact dom_b8_neon kind htab
    · exact dom_b8_ice kind htab
    · exact dom_b8_haswell kind htab
    · exact htab
  case f64c =>
    refine resolve_hit_ne_none _ _ _ _
      (List.mem_cons_of_mem _ (List.mem_cons_of_mem _ (List.mem_cons_self _ _)))
      (serial_entry_hit _ _ table_f64c_serial hv ?_)
    simp only [tiersFor, tiers_f64c, List.mem_cons, List.mem_singleton, List.mem_nil_iff, or_false] at ht
    rcases ht with rfl | rfl | rfl
    · exact dom_f64c_sve kind htab
    · exact dom_f64c_skylake kind htab
    · exact htab
  case f32c =>
    refine resolve_hit_ne_none _ _ _ _
      (List.mem_cons_of_mem _ (List.mem_cons_of_mem _ (List.mem_cons_of_mem _
        (List.mem_cons_of_mem _ (List.mem_cons_self _ _)))))
      (serial_entry_hit _ _ table_f32c_serial hv ?_)
    simp only [tiersFor, tiers_f32c_own, tiers_f64c, List.cons_append,
      List.nil_append, List.mem_cons, List.mem_singleton, List.mem_nil_iff, or_false] at ht
    rcases ht with rfl | rfl | rfl | rfl | rfl | rfl | rfl | rfl
    · exact dom_f32c_sve kind htab
    · exact dom_f32c_neon kind htab
    · exact dom_f32c_haswell kind htab
    · exact dom_f32c_skylake kind htab
    · exact htab
    · exact dom_f32c_from_f64c_sve kind htab
    · exact dom_f32c_from_f64c_skylake kind htab
    · exact dom_f32c_from_f64c_serial kind htab
  case f16c =>
    refine resolve_hit_ne_none _ _ _ _
      (List.mem_cons_of_mem _ (List.mem_cons_of_mem _ (List.mem_cons_of_mem _
        (List.mem_cons_of_mem _ (List.mem_cons_self _ _)))))
      (serial_entry_hit _ _ table_f16c_serial hv ?_)
    simp only [tiersFor, List.mem_cons, List.mem_singleton, List.mem_nil_iff, or_false] at ht
    rcases ht with rfl | rfl | rfl | rfl | rfl
    · exact dom_f16c_sve kind htab
    · exact dom_f16c_neon kind htab
    · exact dom_f16c_haswell kind htab
    · exact dom_f16c_sapphire kind htab
    · exact htab

/-- C4 witness: the theorem applied at (dot, f64) with full masks, where the
Skylake tier answers, and the serial-only query is still non-null. -/
theorem baseline_registers_everything_witness :
    (simsimd_find_metric_punned allTiers .dot .f64 simsimd_cap_any_k
      simsimd_cap_any_k).metric ≠ none ∧
    (simsimd_find_metric_punned allTiers .dot .f64 simsimd_cap_serial_k
      simsimd_cap_serial_k).metric ≠ none :=
  ⟨by decide,
    baseline_registers_everything allTiers .dot .f64 simsimd_cap_any_k
      simsimd_cap_any_k (by decide)⟩

/-- C7: the capability probe always returns the serial bit OR'd with a mask
of advanced-tier bits that does not contain the serial bit, and on an
architecture with no feature-query mechanism compiled in it returns exactly
`simsimd_cap_serial_k`. -/
theorem capabilities_always_include_serial :
    (∀ a : Arch, ∃ adv : Nat, adv &&& simsimd_cap_serial_k = 0 ∧
      simsimd_capabilities a = simsimd_cap_serial_k ||| adv ∧
      simsimd_capabilities a &&& simsimd_cap_serial_k = simsimd_cap_serial_k) ∧
    simsimd_capabilities Arch.other = simsimd_cap_serial_k := by
  constructor
  · intro a
    rcases a with f | hw | _
    · refine ⟨simsimd_cap_haswell_k * (supports_haswell f).toNat |||
        simsimd_cap_skylake_k * (supports_skylake f).toNat |||
        simsimd_cap_ice_k * (supports_ice f).toNat |||
        simsimd_cap_sapphire_k * (supports_sapphire f).toNat, ?_, ?_, ?_⟩
      · exact lor_land_serial_zero (lor_land_serial_zero (lor_land_serial_zero
          (mul_toNat_land_serial_zero _ (by decide))
          (mul_toNat_land_serial_zero _ (by decide)))
          (mul_toNat_land_serial_zero _ (by decide)))
          (mul_toNat_land_serial_zero _ (by decide))
      · exact Nat.lor_comm _ _
      · exact lor_one_land_one _
    · refine ⟨simsimd_cap_neon_k * (1 : Nat) |||
        simsimd_cap_sve_k * (armHwcapSve hw).toNat |||
        simsimd_cap_sve2_k * (armHwcapSve2 hw).toNat, ?_, ?_, ?_⟩
      · exact lor_land_serial_zero (lor_land_serial_zero (by decide)
          (mul_toNat_land_serial_zero _ (by decide)))
          (mul_toNat_land_serial_zero _ (by decide))
      · exact Nat.lor_comm _ _
      · exact lor_one_land_one _
    · exact ⟨0, by decide, by decide, by decide⟩
  · rfl

